import Mathlib

/-!
Verification of `galpy/potential/TwoPowerSphericalPotential.py`.

The file shallowly embeds the two-power-density spherical potential family:
the general Γ/₂F₁ evaluator (`TwoPowerSphericalPotential`), the integer
evaluator (`TwoPowerIntegerSphericalPotential`), the three elementary
profiles (Hernquist, Jaffe, NFW), the Dehnen preset, and the dynamic
dispatch (`integerSelf`) wiring between them.

Conventions of the embedding:
* Machine floats are modelled as real numbers; every query formula is a
  function on `ℝ`.
* The amplitude factor is applied by the external `Potential` base class
  (out of scope per the specification), so the embedded evaluators model
  the underscore methods themselves, i.e. the unit-amplitude values.
* scipy's `gamma` is the real Gamma function, modelled by `Real.Gamma`.
  scipy's `hyp2f1` (the analytically continued Gauss hypergeometric
  function) is not available in Mathlib, so the evaluators are
  parametrised over a provider `F : ℝ → ℝ → ℝ → ℝ → ℝ`; theorems that
  need concrete hypergeometric values take hypotheses stating standard
  ₂F₁ identities at the arguments actually used, and concrete
  instantiations use `hyp2f1Model` below.
* A Python method that can raise is modelled with `Except PyErr` (or, for
  property setters, by returning the pair of the resulting state and an
  optional raised error, so that "state unchanged" is explicit).
-/

/-- Kinds of Python exceptions raised by the code under verification:
`ValueError` from the integer-exponent validation, `TypeError` from
argument-binding failures at call sites, and the bare `Exception` raised
by the frozen-exponent property setters. -/
inductive PyErr where
  | valueError
  | typeError
  | exception
deriving DecidableEq

/-- The three elementary named profiles. -/
inductive ElemKind where
  | hernquist
  | jaffe
  | nfw
deriving DecidableEq

/-- The named-pair dispatch performed in
`TwoPowerIntegerSphericalPotential.__init__` (lines 546-553): exponent
pair (1,4) binds Hernquist, (2,4) binds Jaffe, (1,3) binds NFW, anything
else leaves no elementary delegate. -/
def namedElem (α β : ℤ) : Option ElemKind :=
  if α = 1 ∧ β = 4 then some ElemKind.hernquist
  else if α = 2 ∧ β = 4 then some ElemKind.jaffe
  else if α = 1 ∧ β = 3 then some ElemKind.nfw
  else none

/-- Python's `int()` conversion on a real (float) value: truncation toward
zero.  The code uses it only in the tests `alpha != int(alpha)` and in the
subsequent store `int(alpha)`. -/
noncomputable def pyInt (x : ℝ) : ℤ := if 0 ≤ x then ⌊x⌋ else -⌊-x⌋

/-- Concrete stand-in for scipy's `hyp2f1`, used only to instantiate
theorems at concrete inputs.  Every concrete hypergeometric evaluation in
this development has second and third parameter equal, where the Euler
identity ₂F₁(a,b;b;z) = (1-z)^(-a) gives the value of the analytically
continued function for z < 1; the final branch is never exercised. -/
noncomputable def hyp2f1Model (a b c z : ℝ) : ℝ :=
  if b = c then (1 - z) ^ (-a) else 0

/-- `HernquistPotential._evaluate` (line 784). -/
noncomputable def HernquistPotential.evaluate (a R z : ℝ) : ℝ :=
  -1 / (1 + Real.sqrt (R ^ 2 + z ^ 2) / a) / 2 / a

/-- `HernquistPotential._Rforce` (line 804). -/
noncomputable def HernquistPotential.rforce (a R z : ℝ) : ℝ :=
  -R / a / Real.sqrt (R ^ 2 + z ^ 2) / (1 + Real.sqrt (R ^ 2 + z ^ 2) / a) ^ 2 / 2 / a

/-- `HernquistPotential._zforce` (line 823). -/
noncomputable def HernquistPotential.zforce (a R z : ℝ) : ℝ :=
  -z / a / Real.sqrt (R ^ 2 + z ^ 2) / (1 + Real.sqrt (R ^ 2 + z ^ 2) / a) ^ 2 / 2 / a

/-- `HernquistPotential._R2deriv` (lines 843-844). -/
noncomputable def HernquistPotential.r2deriv (a R z : ℝ) : ℝ :=
  (a * z ^ 2 + (z ^ 2 - 2 * R ^ 2) * Real.sqrt (R ^ 2 + z ^ 2)) /
    Real.sqrt (R ^ 2 + z ^ 2) ^ 3 / (a + Real.sqrt (R ^ 2 + z ^ 2)) ^ 3 / 2

/-- `HernquistPotential._mass` (line 915), for an explicitly supplied
vertical height `z` (the `z is None` branch is not taken when `z` is a
number). -/
noncomputable def HernquistPotential.mass (a R z : ℝ) : ℝ :=
  (Real.sqrt (R ^ 2 + z ^ 2) / a) ^ 2 / 2 / (1 + Real.sqrt (R ^ 2 + z ^ 2) / a) ^ 2

/-- `JaffePotential._evaluate` (line 1025). -/
noncomputable def JaffePotential.evaluate (a R z : ℝ) : ℝ :=
  -Real.log (1 + a / Real.sqrt (R ^ 2 + z ^ 2)) / a

/-- `JaffePotential._Rforce` (line 1044). -/
noncomputable def JaffePotential.rforce (a R z : ℝ) : ℝ :=
  -R / Real.sqrt (R ^ 2 + z ^ 2) ^ 3 / (1 + a / Real.sqrt (R ^ 2 + z ^ 2))

/-- `JaffePotential._zforce` (line 1063). -/
noncomputable def JaffePotential.zforce (a R z : ℝ) : ℝ :=
  -z / Real.sqrt (R ^ 2 + z ^ 2) ^ 3 / (1 + a / Real.sqrt (R ^ 2 + z ^ 2))

/-- `JaffePotential._R2deriv` (lines 1083-1084). -/
noncomputable def JaffePotential.r2deriv (a R z : ℝ) : ℝ :=
  (a * (z ^ 2 - R ^ 2) + (z ^ 2 - 2 * R ^ 2) * Real.sqrt (R ^ 2 + z ^ 2)) /
    Real.sqrt (R ^ 2 + z ^ 2) ^ 4 / (a + Real.sqrt (R ^ 2 + z ^ 2)) ^ 2

/-- `JaffePotential._mass` (line 1157), with `z` explicitly supplied. -/
noncomputable def JaffePotential.mass (a R z : ℝ) : ℝ :=
  Real.sqrt (R ^ 2 + z ^ 2) / a / (1 + Real.sqrt (R ^ 2 + z ^ 2) / a)

/-- `NFWPotential._evaluate` (lines 1278-1279). -/
noncomputable def NFWPotential.evaluate (a R z : ℝ) : ℝ :=
  -Real.log (1 + Real.sqrt (R ^ 2 + z ^ 2) / a) / Real.sqrt (R ^ 2 + z ^ 2)

/-- `NFWPotential._Rforce` (lines 1297-1299). -/
noncomputable def NFWPotential.rforce (a R z : ℝ) : ℝ :=
  R * (1 / (R ^ 2 + z ^ 2) / (a + Real.sqrt (R ^ 2 + z ^ 2)) -
    Real.log (1 + Real.sqrt (R ^ 2 + z ^ 2) / a) / Real.sqrt (R ^ 2 + z ^ 2) /
      (R ^ 2 + z ^ 2))

/-- `NFWPotential._zforce` (lines 1317-1319). -/
noncomputable def NFWPotential.zforce (a R z : ℝ) : ℝ :=
  z * (1 / (R ^ 2 + z ^ 2) / (a + Real.sqrt (R ^ 2 + z ^ 2)) -
    Real.log (1 + Real.sqrt (R ^ 2 + z ^ 2) / a) / Real.sqrt (R ^ 2 + z ^ 2) /
      (R ^ 2 + z ^ 2))

/-- `NFWPotential._R2deriv` (lines 1338-1344); `Rz**2.5` is a real power
of the nonnegative quantity `R²+z²`. -/
noncomputable def NFWPotential.r2deriv (a R z : ℝ) : ℝ :=
  (3 * R ^ 4 + 2 * R ^ 2 * (z ^ 2 + a * Real.sqrt (R ^ 2 + z ^ 2)) -
    z ^ 2 * (z ^ 2 + a * Real.sqrt (R ^ 2 + z ^ 2)) -
    (2 * R ^ 2 - z ^ 2) * (a ^ 2 + R ^ 2 + z ^ 2 + 2 * a * Real.sqrt (R ^ 2 + z ^ 2)) *
      Real.log (1 + Real.sqrt (R ^ 2 + z ^ 2) / a)) /
    (R ^ 2 + z ^ 2) ^ ((5 : ℝ) / 2) / (a + Real.sqrt (R ^ 2 + z ^ 2)) ^ 2

/-- `NFWPotential._mass` (line 1408), with `z` explicitly supplied. -/
noncomputable def NFWPotential.mass (a R z : ℝ) : ℝ :=
  Real.log (1 + Real.sqrt (R ^ 2 + z ^ 2) / a) -
    Real.sqrt (R ^ 2 + z ^ 2) / a / (1 + Real.sqrt (R ^ 2 + z ^ 2) / a)

/-- The `_forceFloatEval=True` path of `TwoPowerSphericalPotential._evaluate`
(lines 134-146): a dedicated closed form when `beta == 3` exactly, else the
general Γ/₂F₁ closed form.  `F` stands for scipy's `hyp2f1`. -/
noncomputable def TwoPowerSphericalPotential.evaluateFloat
    (F : ℝ → ℝ → ℝ → ℝ → ℝ) (a α β R z : ℝ) : ℝ :=
  if β = 3 then
    (1 / a) *
      (Real.sqrt (R ^ 2 + z ^ 2) -
        a * (Real.sqrt (R ^ 2 + z ^ 2) / a) ^ ((3 : ℝ) - α) / (3 - α) *
          F (3 - α) (2 - α) (4 - α) (-Real.sqrt (R ^ 2 + z ^ 2) / a)) /
      (α - 2) / Real.sqrt (R ^ 2 + z ^ 2)
  else
    Real.Gamma (β - 3) *
      ((Real.sqrt (R ^ 2 + z ^ 2) / a) ^ ((3 : ℝ) - β) / Real.Gamma (β - 1) *
          F (β - 3) (β - α) (β - 1) (-a / Real.sqrt (R ^ 2 + z ^ 2)) -
        Real.Gamma (3 - α) / Real.Gamma (β - α)) / Real.sqrt (R ^ 2 + z ^ 2)

/-- The `_forceFloatEval=True` path of `TwoPowerSphericalPotential._Rforce`
(lines 167-170). -/
noncomputable def TwoPowerSphericalPotential.rforceFloat
    (F : ℝ → ℝ → ℝ → ℝ → ℝ) (a α β R z : ℝ) : ℝ :=
  -R / Real.sqrt (R ^ 2 + z ^ 2) ^ α * a ^ (α - 3) / (3 - α) *
    F (3 - α) (β - α) (4 - α) (-Real.sqrt (R ^ 2 + z ^ 2) / a)

/-- The `_forceFloatEval=True` path of `TwoPowerSphericalPotential._zforce`
(lines 191-194). -/
noncomputable def TwoPowerSphericalPotential.zforceFloat
    (F : ℝ → ℝ → ℝ → ℝ → ℝ) (a α β R z : ℝ) : ℝ :=
  -z / Real.sqrt (R ^ 2 + z ^ 2) ^ α * a ^ (α - 3) / (3 - α) *
    F (3 - α) (β - α) (4 - α) (-Real.sqrt (R ^ 2 + z ^ 2) / a)

/-- `TwoPowerSphericalPotential._mass` (lines 337-343) with `z` explicitly
supplied; note the source `_mass` performs no `integerSelf` dispatch and has
no `_forceFloatEval` parameter — it always evaluates this ₂F₁ closed form. -/
noncomputable def TwoPowerSphericalPotential.massFloat
    (F : ℝ → ℝ → ℝ → ℝ → ℝ) (a α β R z : ℝ) : ℝ :=
  (Real.sqrt (R ^ 2 + z ^ 2) / a) ^ ((3 : ℝ) - α) / (3 - α) *
    F (3 - α) (-α + β) (4 - α) (-Real.sqrt (R ^ 2 + z ^ 2) / a)

/-- State of a `TwoPowerIntegerSphericalPotential` instance: scale radius,
the two integer exponents, and the elementary delegate it defers to.  The
source's `integerSelf` field holds a live `HernquistPotential` /
`JaffePotential` / `NFWPotential` object (constructed with the same `a` and
unit amplitude) or `None`; the embedding records the profile kind, the
common scale radius being `a`.  (A setter success rebinds `integerSelf` to a
nested `TwoPowerIntegerSphericalPotential`, which itself defers to the same
elementary profile or evaluates the same Γ/₂F₁ formulas with the same
exponents, so collapsing the delegate to its effective elementary kind is
extensionally faithful.) -/
structure TwoPowerIntegerState where
  a : ℝ
  alpha : ℤ
  beta : ℤ
  integerSelf : Option ElemKind

/-- `TwoPowerIntegerSphericalPotential.__init__` (lines 543-561). -/
def TwoPowerIntegerSphericalPotential.init (a : ℝ) (α β : ℤ) :
    TwoPowerIntegerState :=
  { a := a, alpha := α, beta := β, integerSelf := namedElem α β }

/-- The `alpha` setter of `TwoPowerIntegerSphericalPotential`
(lines 572-584): a non-integer value raises `ValueError` before anything is
stored; an integer value is stored as `int(alpha)` and `integerSelf` is
rebound from the new exponent pair. -/
noncomputable def TwoPowerIntegerSphericalPotential.alphaSet
    (s : TwoPowerIntegerState) (v : ℝ) : TwoPowerIntegerState × Option PyErr :=
  if v = (pyInt v : ℝ) then
    ({ s with alpha := pyInt v, integerSelf := namedElem (pyInt v) s.beta },
      none)
  else (s, some PyErr.valueError)

/-- The `beta` setter of `TwoPowerIntegerSphericalPotential`
(lines 590-602), symmetric to the `alpha` setter. -/
noncomputable def TwoPowerIntegerSphericalPotential.betaSet
    (s : TwoPowerIntegerState) (v : ℝ) : TwoPowerIntegerState × Option PyErr :=
  if v = (pyInt v : ℝ) then
    ({ s with beta := pyInt v, integerSelf := namedElem s.alpha (pyInt v) },
      none)
  else (s, some PyErr.valueError)

/-- `TwoPowerIntegerSphericalPotential._evaluate` (lines 604-624): defer to
the elementary delegate when present, else run the parent `_evaluate` with
`_forceFloatEval=True`. -/
noncomputable def TwoPowerIntegerSphericalPotential.evaluate
    (F : ℝ → ℝ → ℝ → ℝ → ℝ) (s : TwoPowerIntegerState) (R z : ℝ) : ℝ :=
  match s.integerSelf with
  | some ElemKind.hernquist => HernquistPotential.evaluate s.a R z
  | some ElemKind.jaffe => JaffePotential.evaluate s.a R z
  | some ElemKind.nfw => NFWPotential.evaluate s.a R z
  | none => TwoPowerSphericalPotential.evaluateFloat F s.a s.alpha s.beta R z

/-- `TwoPowerIntegerSphericalPotential._Rforce` (lines 626-646). -/
noncomputable def TwoPowerIntegerSphericalPotential.rforce
    (F : ℝ → ℝ → ℝ → ℝ → ℝ) (s : TwoPowerIntegerState) (R z : ℝ) : ℝ :=
  match s.integerSelf with
  | some ElemKind.hernquist => HernquistPotential.rforce s.a R z
  | some ElemKind.jaffe => JaffePotential.rforce s.a R z
  | some ElemKind.nfw => NFWPotential.rforce s.a R z
  | none => TwoPowerSphericalPotential.rforceFloat F s.a s.alpha s.beta R z

/-- `TwoPowerIntegerSphericalPotential._zforce` (lines 648-668). -/
noncomputable def TwoPowerIntegerSphericalPotential.zforce
    (F : ℝ → ℝ → ℝ → ℝ → ℝ) (s : TwoPowerIntegerState) (R z : ℝ) : ℝ :=
  match s.integerSelf with
  | some ElemKind.hernquist => HernquistPotential.zforce s.a R z
  | some ElemKind.jaffe => JaffePotential.zforce s.a R z
  | some ElemKind.nfw => NFWPotential.zforce s.a R z
  | none => TwoPowerSphericalPotential.zforceFloat F s.a s.alpha s.beta R z

/-- The formula body of `TwoPowerIntegerSphericalPotential._R2deriv`
(lines 689-703), translated term by term; it contains no `raise` and no
guard on `beta` (the `beta == 3` / `beta == 5` guards exist only in the
commented-out general `_R2deriv`, lines 196-237). -/
noncomputable def TwoPowerIntegerSphericalPotential.r2derivFormula
    (F : ℝ → ℝ → ℝ → ℝ → ℝ) (a α β R z : ℝ) : ℝ :=
  Real.Gamma (β - 3) / Real.sqrt (R ^ 2 + z ^ 2) ^ 5 *
    (((z ^ 2 - 2 * R ^ 2) * Real.Gamma (3 - α)) / Real.Gamma (β - α) +
      a ^ (-3 + β) * (R ^ 2 + z ^ 2) ^ ((1 : ℝ) - β / 2) *
        ((z ^ 2 * (a * (α - β) - Real.sqrt (R ^ 2 + z ^ 2) * (β - 2)) +
            R ^ 2 * (Real.sqrt (R ^ 2 + z ^ 2) * (β - 2) * (β - 1) +
              2 * a * (β - α))) *
          F (-2 + β) (β - α + 1) β (-(a / Real.sqrt (R ^ 2 + z ^ 2))) /
            Real.Gamma β +
        (a * (R ^ 2 * (2 + α * (-3 + β)) - z ^ 2 * (β - 2)) +
            Real.sqrt (R ^ 2 + z ^ 2) * (-z ^ 2 + R ^ 2 * (β - 1)) * (β - 2)) *
          (-2 + β) *
          F (β - 1) (β - α + 1) β (-(a / Real.sqrt (R ^ 2 + z ^ 2))) /
            Real.Gamma β))

/-- `TwoPowerIntegerSphericalPotential._R2deriv` (lines 670-703): defer to
the elementary delegate when present, else evaluate the Γ/₂F₁ formula.
Every branch produces a numeric result — the method has no failure path. -/
noncomputable def TwoPowerIntegerSphericalPotential.r2deriv
    (F : ℝ → ℝ → ℝ → ℝ → ℝ) (s : TwoPowerIntegerState) (R z : ℝ) :
    Except PyErr ℝ :=
  match s.integerSelf with
  | some ElemKind.hernquist => Except.ok (HernquistPotential.r2deriv s.a R z)
  | some ElemKind.jaffe => Except.ok (JaffePotential.r2deriv s.a R z)
  | some ElemKind.nfw => Except.ok (NFWPotential.r2deriv s.a R z)
  | none =>
      Except.ok (TwoPowerIntegerSphericalPotential.r2derivFormula F s.a
        s.alpha s.beta R z)

/-- Whether `TwoPowerIntegerSphericalPotential._R2deriv` accepts the
`_forceFloatEval` keyword: its signature (line 670) is
`_R2deriv(self, R, z, phi=0., t=0.)` with no such parameter and no
`**kwargs`, so a call supplying that keyword fails to bind. -/
def TwoPowerIntegerSphericalPotential.r2derivAcceptsFFE : Bool := false

/-- `_z2deriv` as executed on a `TwoPowerIntegerSphericalPotential`
instance: the inherited body (lines 256-257) is
`self._R2deriv(numpy.fabs(z), R, phi=phi, t=t, _forceFloatEval=...)`, and
on this class `self._R2deriv` resolves to the override that does not accept
the `_forceFloatEval` keyword, so Python raises `TypeError` at the call
site, before the `_R2deriv` body runs. -/
noncomputable def TwoPowerIntegerSphericalPotential.z2deriv
    (F : ℝ → ℝ → ℝ → ℝ → ℝ) (s : TwoPowerIntegerState) (R z : ℝ)
    (_ffe : Bool) : Except PyErr ℝ :=
  if TwoPowerIntegerSphericalPotential.r2derivAcceptsFFE then
    TwoPowerIntegerSphericalPotential.r2deriv F s |z| R
  else Except.error PyErr.typeError

/-- State of a `TwoPowerSphericalPotential` instance: scale radius, the two
real exponents, and the `integerSelf` delegate (an integer evaluator, or
`None`). -/
structure TwoPowerState where
  a : ℝ
  alpha : ℝ
  beta : ℝ
  integerSelf : Option TwoPowerIntegerState

/-- `TwoPowerSphericalPotential.__init__` (lines 62-79) for an instance of
the class itself: when both exponents round-trip through `round`, bind an
integer evaluator at the rounded exponents, else leave no delegate. -/
noncomputable def TwoPowerSphericalPotential.init (a α β : ℝ) : TwoPowerState :=
  { a := a, alpha := α, beta := β,
    integerSelf :=
      if α = (round α : ℝ) ∧ β = (round β : ℝ) then
        some (TwoPowerIntegerSphericalPotential.init a (round α) (round β))
      else none }

/-- The `alpha` setter of `TwoPowerSphericalPotential` (lines 90-100):
store the new exponent, then rebind `integerSelf` by re-running the
dispatch rule on the current pair. -/
noncomputable def TwoPowerSphericalPotential.alphaSet (s : TwoPowerState)
    (v : ℝ) : TwoPowerState :=
  { s with
    alpha := v,
    integerSelf :=
      if v = (round v : ℝ) ∧ s.beta = (round s.beta : ℝ) then
        some (TwoPowerIntegerSphericalPotential.init s.a (round v)
          (round s.beta))
      else none }

/-- The `beta` setter of `TwoPowerSphericalPotential` (lines 105-114). -/
noncomputable def TwoPowerSphericalPotential.betaSet (s : TwoPowerState)
    (v : ℝ) : TwoPowerState :=
  { s with
    beta := v,
    integerSelf :=
      if s.alpha = (round s.alpha : ℝ) ∧ v = (round v : ℝ) then
        some (TwoPowerIntegerSphericalPotential.init s.a (round s.alpha)
          (round v))
      else none }

/-- `TwoPowerSphericalPotential._evaluate` (lines 116-146): unless
`_forceFloatEval` is set, a bound `integerSelf` services the query;
otherwise the float formulas run. -/
noncomputable def TwoPowerSphericalPotential.evaluate
    (F : ℝ → ℝ → ℝ → ℝ → ℝ) (s : TwoPowerState) (R z : ℝ) (ffe : Bool) : ℝ :=
  match ffe, s.integerSelf with
  | false, some ie => TwoPowerIntegerSphericalPotential.evaluate F ie R z
  | _, _ => TwoPowerSphericalPotential.evaluateFloat F s.a s.alpha s.beta R z

/-- `TwoPowerSphericalPotential._Rforce` (lines 148-170). -/
noncomputable def TwoPowerSphericalPotential.rforce
    (F : ℝ → ℝ → ℝ → ℝ → ℝ) (s : TwoPowerState) (R z : ℝ) (ffe : Bool) : ℝ :=
  match ffe, s.integerSelf with
  | false, some ie => TwoPowerIntegerSphericalPotential.rforce F ie R z
  | _, _ => TwoPowerSphericalPotential.rforceFloat F s.a s.alpha s.beta R z

/-- `TwoPowerSphericalPotential._zforce` (lines 172-194). -/
noncomputable def TwoPowerSphericalPotential.zforce
    (F : ℝ → ℝ → ℝ → ℝ → ℝ) (s : TwoPowerState) (R z : ℝ) (ffe : Bool) : ℝ :=
  match ffe, s.integerSelf with
  | false, some ie => TwoPowerIntegerSphericalPotential.zforce F ie R z
  | _, _ => TwoPowerSphericalPotential.zforceFloat F s.a s.alpha s.beta R z

/-- `TwoPowerSphericalPotential._mass` on the façade (lines 322-343): the
source `_mass` never consults `integerSelf`, so the dispatched mass equals
the Γ/₂F₁ formula at the stored parameters. -/
noncomputable def TwoPowerSphericalPotential.mass
    (F : ℝ → ℝ → ℝ → ℝ → ℝ) (s : TwoPowerState) (R z : ℝ) : ℝ :=
  TwoPowerSphericalPotential.massFloat F s.a s.alpha s.beta R z

/-- State of a `DehnenSphericalPotential` instance: `beta` is frozen at 4
by construction (line 391), so only `a`, `alpha` and the delegate are
recorded. -/
structure DehnenState where
  a : ℝ
  alpha : ℝ
  integerSelf : Option TwoPowerIntegerState

/-- `DehnenSphericalPotential.__init__` (lines 387-400): an integer-valued
`alpha` binds an integer evaluator at `(round alpha, 4)`. -/
noncomputable def DehnenSphericalPotential.init (a α : ℝ) : DehnenState :=
  { a := a, alpha := α,
    integerSelf :=
      if α = (round α : ℝ) then
        some (TwoPowerIntegerSphericalPotential.init a (round α) 4)
      else none }

/-- `DehnenSphericalPotential._R2deriv` (lines 429-454).  The delegation
branch (line 446) is written
`self.integerSelf._R2deriv(self, R, z, phi=phi, t=t)`: on the bound method
the positional arguments bind as `R ← self`, `z ← R`, `phi ← z`, and the
keyword `phi=phi` then supplies `phi` a second value, so Python raises
`TypeError` at the call site.  The non-delegating branch evaluates the
elementary Dehnen closed form (lines 451-454). -/
noncomputable def DehnenSphericalPotential.r2deriv (s : DehnenState)
    (R z : ℝ) (ffe : Bool) : Except PyErr ℝ :=
  match ffe, s.integerSelf with
  | false, some _ => Except.error PyErr.typeError
  | _, _ =>
      Except.ok (((1 + s.a / Real.sqrt (R ^ 2 + z ^ 2)) ^ s.alpha *
          (2 * R ^ 4 - z ^ 2 * (z ^ 2 + s.a * Real.sqrt (R ^ 2 + z ^ 2)) +
            R ^ 2 * (z ^ 2 + s.a * Real.sqrt (R ^ 2 + z ^ 2) * (-1 + s.alpha)))) /
        (Real.sqrt (R ^ 2 + z ^ 2) ^ 3 * (s.a + Real.sqrt (R ^ 2 + z ^ 2)) ^ 4 *
          (-3 + s.alpha)))

/-- The `beta` setter of `DehnenSphericalPotential` (lines 425-427):
unconditionally `raise Exception('cannot modify beta')`. -/
def DehnenSphericalPotential.betaSet (s : DehnenState) (_v : ℝ) :
    DehnenState × Option PyErr :=
  (s, some PyErr.exception)

/-- State of a Hernquist / Jaffe / NFW preset instance: scale radius plus
the stored exponent pair set by the constructor; both exponents are frozen
by the overriding setters. -/
structure PresetState where
  a : ℝ
  alpha : ℝ
  beta : ℝ

/-- The `alpha` setter of `HernquistPotential` (lines 756-758):
unconditionally `raise Exception('cannot modify alpha')`. -/
def HernquistPotential.alphaSet (s : PresetState) (_v : ℝ) :
    PresetState × Option PyErr :=
  (s, some PyErr.exception)

/-- The `beta` setter of `HernquistPotential` (lines 763-765). -/
def HernquistPotential.betaSet (s : PresetState) (_v : ℝ) :
    PresetState × Option PyErr :=
  (s, some PyErr.exception)

/-- The `alpha` setter of `JaffePotential` (lines 997-999). -/
def JaffePotential.alphaSet (s : PresetState) (_v : ℝ) :
    PresetState × Option PyErr :=
  (s, some PyErr.exception)

/-- The `beta` setter of `JaffePotential` (lines 1004-1006). -/
def JaffePotential.betaSet (s : PresetState) (_v : ℝ) :
    PresetState × Option PyErr :=
  (s, some PyErr.exception)

/-- The `alpha` setter of `NFWPotential` (lines 1251-1253). -/
def NFWPotential.alphaSet (s : PresetState) (_v : ℝ) :
    PresetState × Option PyErr :=
  (s, some PyErr.exception)

/-- The `beta` setter of `NFWPotential` (lines 1258-1260). -/
def NFWPotential.betaSet (s : PresetState) (_v : ℝ) :
    PresetState × Option PyErr :=
  (s, some PyErr.exception)

/-- The common radial-force-magnitude factor exactly as the specification
states it (spec section 4.1): `f(r) = −a^(α−3)/(3−α) · ₂F₁(3−α, β−α; 4−α;
−a/r) · r^(−α)`, with hypergeometric argument `−a/r`. -/
noncomputable def specForceFactor (F : ℝ → ℝ → ℝ → ℝ → ℝ) (a α β r : ℝ) : ℝ :=
  -(a ^ (α - 3)) / (3 - α) * F (3 - α) (β - α) (4 - α) (-a / r) * r ^ (-α)

/-- The radial-force-magnitude factor with the hypergeometric argument
amended to `−r/a`, which is what the source code (lines 169-170, 193-194)
actually passes to `hyp2f1`. -/
noncomputable def specForceFactorAmended (F : ℝ → ℝ → ℝ → ℝ → ℝ)
    (a α β r : ℝ) : ℝ :=
  -(a ^ (α - 3)) / (3 - α) * F (3 - α) (β - α) (4 - α) (-r / a) * r ^ (-α)

lemma gammaThreeEq : Real.Gamma 3 = 2 := by
  have h := Real.Gamma_nat_eq_factorial 2
  rw [show ((2 : ℕ) : ℝ) + 1 = 3 by norm_num] at h
  rw [h]
  norm_num [Nat.factorial]

lemma gammaFourEq : Real.Gamma 4 = 6 := by
  have h := Real.Gamma_nat_eq_factorial 3
  rw [show ((3 : ℕ) : ℝ) + 1 = 4 by norm_num] at h
  rw [h]
  norm_num [Nat.factorial]

lemma gammaFiveEq : Real.Gamma 5 = 24 := by
  have h := Real.Gamma_nat_eq_factorial 4
  rw [show ((4 : ℕ) : ℝ) + 1 = 5 by norm_num] at h
  rw [h]
  norm_num [Nat.factorial]

lemma roundFourEq : round (4 : ℝ) = 4 := by
  rw [show (4 : ℝ) = ((4 : ℤ) : ℝ) by norm_num, round_intCast]

lemma roundThreeHalvesEq : round ((3 : ℝ) / 2) = 2 := by
  rw [round_eq, show (3 : ℝ) / 2 + 1 / 2 = ((2 : ℤ) : ℝ) by norm_num,
    Int.floor_intCast]

/-- C9: with unit amplitude and scale radius `a = 1`, the Hernquist
potential at (0,0) equals -1/2, the NFW potential at (1,0) equals -ln 2,
and the Jaffe enclosed mass at (1,0) equals 1/2. -/
theorem C9_known_closed_form_values :
    HernquistPotential.evaluate 1 0 0 = -(1 / 2) ∧
    NFWPotential.evaluate 1 1 0 = -Real.log 2 ∧
    JaffePotential.mass 1 1 0 = 1 / 2 := by
  have h0 : Real.sqrt ((0 : ℝ) ^ 2 + 0 ^ 2) = 0 := by
    rw [show ((0 : ℝ) ^ 2 + 0 ^ 2) = 0 by norm_num, Real.sqrt_zero]
  have h1 : Real.sqrt ((1 : ℝ) ^ 2 + 0 ^ 2) = 1 := by
    rw [show ((1 : ℝ) ^ 2 + 0 ^ 2) = 1 by norm_num, Real.sqrt_one]
  refine ⟨?_, ?_, ?_⟩
  · rw [HernquistPotential.evaluate, h0]
    norm_num
  · rw [NFWPotential.evaluate, h1]
    norm_num
  · rw [JaffePotential.mass, h1]
    norm_num

/-- C7: each frozen-exponent setter of the preset profiles (Hernquist,
Jaffe, NFW for both exponents; Dehnen for beta) raises on every attempted
assignment and returns the state unchanged — no silent no-op, no partial
mutation. -/
theorem C7_frozen_setters_always_raise (p : PresetState) (d : DehnenState)
    (v : ℝ) :
    HernquistPotential.alphaSet p v = (p, some PyErr.exception) ∧
    HernquistPotential.betaSet p v = (p, some PyErr.exception) ∧
    JaffePotential.alphaSet p v = (p, some PyErr.exception) ∧
    JaffePotential.betaSet p v = (p, some PyErr.exception) ∧
    NFWPotential.alphaSet p v = (p, some PyErr.exception) ∧
    NFWPotential.betaSet p v = (p, some PyErr.exception) ∧
    DehnenSphericalPotential.betaSet d v = (d, some PyErr.exception) :=
  ⟨rfl, rfl, rfl, rfl, rfl, rfl, rfl⟩

/-- C8: for every evaluator in the family (general float path, integer,
Hernquist, Jaffe, NFW) and every query point with `r = √(R²+z²) > 0`, the
force components satisfy `z · Rforce = R · zforce`: both are one scalar
radial magnitude times the direction cosines `R/r` and `z/r`. -/
theorem C8_forces_share_radial_magnitude (F : ℝ → ℝ → ℝ → ℝ → ℝ)
    (ie : TwoPowerIntegerState) (a α β R z : ℝ) (h : 0 < R ^ 2 + z ^ 2) :
    z * TwoPowerSphericalPotential.rforceFloat F a α β R z
        = R * TwoPowerSphericalPotential.zforceFloat F a α β R z ∧
    z * TwoPowerIntegerSphericalPotential.rforce F ie R z
        = R * TwoPowerIntegerSphericalPotential.zforce F ie R z ∧
    z * HernquistPotential.rforce a R z = R * HernquistPotential.zforce a R z ∧
    z * JaffePotential.rforce a R z = R * JaffePotential.zforce a R z ∧
    z * NFWPotential.rforce a R z = R * NFWPotential.zforce a R z := by
  have hgen : ∀ a' α' β' : ℝ,
      z * TwoPowerSphericalPotential.rforceFloat F a' α' β' R z
        = R * TwoPowerSphericalPotential.zforceFloat F a' α' β' R z := by
    intro a' α' β'
    rw [TwoPowerSphericalPotential.rforceFloat,
      TwoPowerSphericalPotential.zforceFloat]
    ring
  have hhern : ∀ a' : ℝ,
      z * HernquistPotential.rforce a' R z = R * HernquistPotential.zforce a' R z := by
    intro a'
    rw [HernquistPotential.rforce, HernquistPotential.zforce]
    ring
  have hjaffe : ∀ a' : ℝ,
      z * JaffePotential.rforce a' R z = R * JaffePotential.zforce a' R z := by
    intro a'
    rw [JaffePotential.rforce, JaffePotential.zforce]
    ring
  have hnfw : ∀ a' : ℝ,
      z * NFWPotential.rforce a' R z = R * NFWPotential.zforce a' R z := by
    intro a'
    rw [NFWPotential.rforce, NFWPotential.zforce]
    ring
  refine ⟨hgen a α β, ?_, hhern a, hjaffe a, hnfw a⟩
  rw [TwoPowerIntegerSphericalPotential.rforce,
    TwoPowerIntegerSphericalPotential.zforce]
  rcases ie with ⟨a', α', β', inner⟩
  rcases inner with _ | k
  · exact hgen a' α' β'
  · cases k
    · exact hhern a'
    · exact hjaffe a'
    · exact hnfw a'

/-- Witness for C8 at the concrete point (R,z) = (0.3, 0.4) with the
NFW-bound integer evaluator and the model hypergeometric provider. -/
theorem C8_witness :
    (0 : ℝ) < 0.3 ^ 2 + 0.4 ^ 2 ∧
    ((0.4 : ℝ) * TwoPowerSphericalPotential.rforceFloat hyp2f1Model 1 (3/2) (7/2) 0.3 0.4
        = 0.3 * TwoPowerSphericalPotential.zforceFloat hyp2f1Model 1 (3/2) (7/2) 0.3 0.4 ∧
    (0.4 : ℝ) * TwoPowerIntegerSphericalPotential.rforce hyp2f1Model
          (TwoPowerIntegerSphericalPotential.init 1 1 3) 0.3 0.4
        = 0.3 * TwoPowerIntegerSphericalPotential.zforce hyp2f1Model
          (TwoPowerIntegerSphericalPotential.init 1 1 3) 0.3 0.4 ∧
    (0.4 : ℝ) * HernquistPotential.rforce 1 0.3 0.4 = 0.3 * HernquistPotential.zforce 1 0.3 0.4 ∧
    (0.4 : ℝ) * JaffePotential.rforce 1 0.3 0.4 = 0.3 * JaffePotential.zforce 1 0.3 0.4 ∧
    (0.4 : ℝ) * NFWPotential.rforce 1 0.3 0.4 = 0.3 * NFWPotential.zforce 1 0.3 0.4) :=
  ⟨by norm_num,
    C8_forces_share_radial_magnitude hyp2f1Model
      (TwoPowerIntegerSphericalPotential.init 1 1 3) 1 (3/2) (7/2) 0.3 0.4
      (by norm_num)⟩

lemma rpowNegOneReal (x : ℝ) : x ^ (-1 : ℝ) = x⁻¹ := by
  rw [show (-1 : ℝ) = ((-1 : ℤ) : ℝ) by norm_num, Real.rpow_intCast, zpow_neg_one]

lemma rpowTwoReal (x : ℝ) : x ^ (2 : ℝ) = x ^ 2 := by
  rw [show (2 : ℝ) = ((2 : ℕ) : ℝ) by norm_num, Real.rpow_natCast]

lemma hyp2f1ModelEq (a b z : ℝ) : hyp2f1Model a b b z = (1 - z) ^ (-a) := by
  rw [hyp2f1Model, if_pos rfl]

lemma init114Eq : TwoPowerSphericalPotential.init 1 1 4 =
    { a := 1, alpha := 1, beta := 4,
      integerSelf := some
        { a := 1, alpha := 1, beta := 4, integerSelf := some ElemKind.hernquist } } := by
  rw [TwoPowerSphericalPotential.init, round_one, roundFourEq,
    if_pos (⟨by norm_num, by norm_num⟩ :
      (1 : ℝ) = ((1 : ℤ) : ℝ) ∧ (4 : ℝ) = ((4 : ℤ) : ℝ))]
  rw [TwoPowerIntegerSphericalPotential.init]
  rfl

/-- C1: for the two-power profile with α=1, β=4, a=1, the dispatched
Hernquist elementary path and the forced-General Γ/₂F₁ path
(`_forceFloatEval=True`) agree exactly — hence within any relative
tolerance — for potential, radial force, vertical force and enclosed mass,
at every query point with r > 0.  The two hypotheses on `F` are the Euler
identity values ₂F₁(1,3;3;z) = (1-z)⁻¹ and ₂F₁(2,3;3;z) = (1-z)⁻², which
scipy's `hyp2f1` satisfies at the argument tuples these formulas use. -/
theorem C1_hernquist_path_matches_forced_general (F : ℝ → ℝ → ℝ → ℝ → ℝ)
    (R z : ℝ) (h : 0 < R ^ 2 + z ^ 2)
    (h1 : F 1 3 3 (-1 / Real.sqrt (R ^ 2 + z ^ 2))
        = (1 + 1 / Real.sqrt (R ^ 2 + z ^ 2))⁻¹)
    (h2 : F 2 3 3 (-Real.sqrt (R ^ 2 + z ^ 2))
        = ((1 + Real.sqrt (R ^ 2 + z ^ 2)) ^ 2)⁻¹) :
    TwoPowerSphericalPotential.evaluate F
        (TwoPowerSphericalPotential.init 1 1 4) R z false
      = TwoPowerSphericalPotential.evaluate F
        (TwoPowerSphericalPotential.init 1 1 4) R z true ∧
    TwoPowerSphericalPotential.rforce F
        (TwoPowerSphericalPotential.init 1 1 4) R z false
      = TwoPowerSphericalPotential.rforce F
        (TwoPowerSphericalPotential.init 1 1 4) R z true ∧
    TwoPowerSphericalPotential.zforce F
        (TwoPowerSphericalPotential.init 1 1 4) R z false
      = TwoPowerSphericalPotential.zforce F
        (TwoPowerSphericalPotential.init 1 1 4) R z true ∧
    HernquistPotential.mass 1 R z
      = TwoPowerSphericalPotential.mass F
        (TwoPowerSphericalPotential.init 1 1 4) R z := by
  have hr : 0 < Real.sqrt (R ^ 2 + z ^ 2) := Real.sqrt_pos.mpr h
  have hr' : Real.sqrt (R ^ 2 + z ^ 2) ≠ 0 := ne_of_gt hr
  have h1r' : (1 : ℝ) + Real.sqrt (R ^ 2 + z ^ 2) ≠ 0 := by positivity
  rw [init114Eq]
  refine ⟨?_, ?_, ?_, ?_⟩
  · show HernquistPotential.evaluate 1 R z
        = TwoPowerSphericalPotential.evaluateFloat F 1 1 4 R z
    rw [HernquistPotential.evaluate, TwoPowerSphericalPotential.evaluateFloat,
      if_neg (by norm_num : ¬((4 : ℝ) = 3))]
    rw [show (4 : ℝ) - 3 = 1 by norm_num, show (3 : ℝ) - 4 = -1 by norm_num,
      show (4 : ℝ) - 1 = 3 by norm_num, show (3 : ℝ) - 1 = 2 by norm_num]
    rw [Real.Gamma_one, gammaThreeEq, Real.Gamma_two]
    simp only [div_one]
    rw [rpowNegOneReal, h1]
    field_simp
    ring
  · show HernquistPotential.rforce 1 R z
        = TwoPowerSphericalPotential.rforceFloat F 1 1 4 R z
    rw [HernquistPotential.rforce, TwoPowerSphericalPotential.rforceFloat]
    rw [show (3 : ℝ) - 1 = 2 by norm_num, show (4 : ℝ) - 1 = 3 by norm_num]
    simp only [div_one]
    rw [Real.one_rpow, Real.rpow_one, h2]
    field_simp
    left
    ring
  · show HernquistPotential.zforce 1 R z
        = TwoPowerSphericalPotential.zforceFloat F 1 1 4 R z
    rw [HernquistPotential.zforce, TwoPowerSphericalPotential.zforceFloat]
    rw [show (3 : ℝ) - 1 = 2 by norm_num, show (4 : ℝ) - 1 = 3 by norm_num]
    simp only [div_one]
    rw [Real.one_rpow, Real.rpow_one, h2]
    field_simp
    left
    ring
  · show HernquistPotential.mass 1 R z
        = TwoPowerSphericalPotential.massFloat F 1 1 4 R z
    rw [HernquistPotential.mass, TwoPowerSphericalPotential.massFloat]
    rw [show (3 : ℝ) - 1 = 2 by norm_num, show (-1 : ℝ) + 4 = 3 by norm_num,
      show (4 : ℝ) - 1 = 3 by norm_num]
    simp only [div_one]
    rw [rpowTwoReal, h2]
    field_simp

lemma sqrtPointThreeFour : Real.sqrt ((0.3 : ℝ) ^ 2 + 0.4 ^ 2) = 1 / 2 := by
  rw [show ((0.3 : ℝ) ^ 2 + 0.4 ^ 2) = (1 / 2) ^ 2 by norm_num]
  exact Real.sqrt_sq (by norm_num)

/-- Witness for C1 at (R,z) = (0.3, 0.4) (so r = 0.5) with the model
hypergeometric provider; the hypotheses of the theorem are discharged by
evaluating the model at the concrete arguments. -/
theorem C1_witness :
    (0 : ℝ) < 0.3 ^ 2 + 0.4 ^ 2 ∧
    hyp2f1Model 1 3 3 (-1 / Real.sqrt ((0.3 : ℝ) ^ 2 + 0.4 ^ 2))
        = (1 + 1 / Real.sqrt ((0.3 : ℝ) ^ 2 + 0.4 ^ 2))⁻¹ ∧
    hyp2f1Model 2 3 3 (-Real.sqrt ((0.3 : ℝ) ^ 2 + 0.4 ^ 2))
        = ((1 + Real.sqrt ((0.3 : ℝ) ^ 2 + 0.4 ^ 2)) ^ 2)⁻¹ ∧
    (TwoPowerSphericalPotential.evaluate hyp2f1Model
        (TwoPowerSphericalPotential.init 1 1 4) 0.3 0.4 false
      = TwoPowerSphericalPotential.evaluate hyp2f1Model
        (TwoPowerSphericalPotential.init 1 1 4) 0.3 0.4 true ∧
    TwoPowerSphericalPotential.rforce hyp2f1Model
        (TwoPowerSphericalPotential.init 1 1 4) 0.3 0.4 false
      = TwoPowerSphericalPotential.rforce hyp2f1Model
        (TwoPowerSphericalPotential.init 1 1 4) 0.3 0.4 true ∧
    TwoPowerSphericalPotential.zforce hyp2f1Model
        (TwoPowerSphericalPotential.init 1 1 4) 0.3 0.4 false
      = TwoPowerSphericalPotential.zforce hyp2f1Model
        (TwoPowerSphericalPotential.init 1 1 4) 0.3 0.4 true ∧
    HernquistPotential.mass 1 0.3 0.4
      = TwoPowerSphericalPotential.mass hyp2f1Model
        (TwoPowerSphericalPotential.init 1 1 4) 0.3 0.4) := by
  have p1 : hyp2f1Model 1 3 3 (-1 / Real.sqrt ((0.3 : ℝ) ^ 2 + 0.4 ^ 2))
      = (1 + 1 / Real.sqrt ((0.3 : ℝ) ^ 2 + 0.4 ^ 2))⁻¹ := by
    rw [sqrtPointThreeFour, hyp2f1ModelEq,
      show (1 : ℝ) - -1 / (1 / 2) = 3 by norm_num, rpowNegOneReal]
    norm_num
  have p2 : hyp2f1Model 2 3 3 (-Real.sqrt ((0.3 : ℝ) ^ 2 + 0.4 ^ 2))
      = ((1 + Real.sqrt ((0.3 : ℝ) ^ 2 + 0.4 ^ 2)) ^ 2)⁻¹ := by
    rw [sqrtPointThreeFour, hyp2f1ModelEq,
      show (1 : ℝ) - -(1 / 2) = 3 / 2 by norm_num,
      show (-(2 : ℝ)) = ((-2 : ℤ) : ℝ) by norm_num, Real.rpow_intCast]
    norm_num
  exact ⟨by norm_num, p1, p2,
    C1_hernquist_path_matches_forced_general hyp2f1Model 0.3 0.4
      (by norm_num) p1 p2⟩

lemma alphaSetRebindEq :
    TwoPowerSphericalPotential.alphaSet
        (TwoPowerSphericalPotential.init 1 (3 / 2) 4) 1 =
      { a := 1, alpha := 1, beta := 4,
        integerSelf := some
          { a := 1, alpha := 1, beta := 4, integerSelf := some ElemKind.hernquist } } := by
  simp only [TwoPowerSphericalPotential.init, TwoPowerSphericalPotential.alphaSet]
  rw [round_one, roundFourEq,
    if_pos (⟨by norm_num, by norm_num⟩ :
      (1 : ℝ) = ((1 : ℤ) : ℝ) ∧ (4 : ℝ) = ((4 : ℤ) : ℝ))]
  rw [TwoPowerIntegerSphericalPotential.init]
  rfl

/-- C5: after constructing a `TwoPowerSphericalPotential` with α=1.5, β=4
and mutating α to exactly 1, the setter has re-run the dispatch and bound
the (1,4) integer evaluator (which itself defers to Hernquist), and every
subsequent potential / radial-force / vertical-force query returns exactly
the Hernquist elementary value at every point with r > 0. -/
theorem C5_alpha_mutation_rebinds_to_hernquist (F : ℝ → ℝ → ℝ → ℝ → ℝ)
    (R z : ℝ) (h : 0 < R ^ 2 + z ^ 2) :
    (TwoPowerSphericalPotential.alphaSet
        (TwoPowerSphericalPotential.init 1 (3 / 2) 4) 1).integerSelf
      = some (TwoPowerIntegerSphericalPotential.init 1 1 4) ∧
    TwoPowerSphericalPotential.evaluate F
        (TwoPowerSphericalPotential.alphaSet
          (TwoPowerSphericalPotential.init 1 (3 / 2) 4) 1) R z false
      = HernquistPotential.evaluate 1 R z ∧
    TwoPowerSphericalPotential.rforce F
        (TwoPowerSphericalPotential.alphaSet
          (TwoPowerSphericalPotential.init 1 (3 / 2) 4) 1) R z false
      = HernquistPotential.rforce 1 R z ∧
    TwoPowerSphericalPotential.zforce F
        (TwoPowerSphericalPotential.alphaSet
          (TwoPowerSphericalPotential.init 1 (3 / 2) 4) 1) R z false
      = HernquistPotential.zforce 1 R z := by
  rw [alphaSetRebindEq]
  exact ⟨rfl, rfl, rfl, rfl⟩

/-- Witness for C5 at the query point (R,z) = (0.3, 0.4). -/
theorem C5_witness :
    (0 : ℝ) < 0.3 ^ 2 + 0.4 ^ 2 ∧
    ((TwoPowerSphericalPotential.alphaSet
        (TwoPowerSphericalPotential.init 1 (3 / 2) 4) 1).integerSelf
      = some (TwoPowerIntegerSphericalPotential.init 1 1 4) ∧
    TwoPowerSphericalPotential.evaluate hyp2f1Model
        (TwoPowerSphericalPotential.alphaSet
          (TwoPowerSphericalPotential.init 1 (3 / 2) 4) 1) 0.3 0.4 false
      = HernquistPotential.evaluate 1 0.3 0.4 ∧
    TwoPowerSphericalPotential.rforce hyp2f1Model
        (TwoPowerSphericalPotential.alphaSet
          (TwoPowerSphericalPotential.init 1 (3 / 2) 4) 1) 0.3 0.4 false
      = HernquistPotential.rforce 1 0.3 0.4 ∧
    TwoPowerSphericalPotential.zforce hyp2f1Model
        (TwoPowerSphericalPotential.alphaSet
          (TwoPowerSphericalPotential.init 1 (3 / 2) 4) 1) 0.3 0.4 false
      = HernquistPotential.zforce 1 0.3 0.4) :=
  ⟨by norm_num,
    C5_alpha_mutation_rebinds_to_hernquist hyp2f1Model 0.3 0.4 (by norm_num)⟩

/-- C6: assigning a non-integer value to `alpha` or to `beta` on the
integer evaluator raises `ValueError` and leaves the stored exponents and
the dispatch binding unchanged; the value is never silently truncated. -/
theorem C6_noninteger_exponent_rejected (s : TwoPowerIntegerState) (v : ℝ)
    (h : v ≠ (pyInt v : ℝ)) :
    TwoPowerIntegerSphericalPotential.alphaSet s v
        = (s, some PyErr.valueError) ∧
    TwoPowerIntegerSphericalPotential.betaSet s v
        = (s, some PyErr.valueError) := by
  constructor
  · rw [TwoPowerIntegerSphericalPotential.alphaSet, if_neg h]
  · rw [TwoPowerIntegerSphericalPotential.betaSet, if_neg h]

lemma pyIntThreeHalvesEq : pyInt ((3 : ℝ) / 2) = 1 := by
  rw [pyInt, if_pos (by norm_num : (0 : ℝ) ≤ 3 / 2), Int.floor_eq_iff]
  constructor <;> norm_num

/-- Witness for C6: setting α or β to 1.5 on the NFW-bound integer
evaluator state is rejected with the state unchanged. -/
theorem C6_witness :
    ((3 : ℝ) / 2 ≠ (pyInt ((3 : ℝ) / 2) : ℝ)) ∧
    (TwoPowerIntegerSphericalPotential.alphaSet
        (TwoPowerIntegerSphericalPotential.init 1 1 3) (3 / 2)
      = (TwoPowerIntegerSphericalPotential.init 1 1 3, some PyErr.valueError) ∧
    TwoPowerIntegerSphericalPotential.betaSet
        (TwoPowerIntegerSphericalPotential.init 1 1 3) (3 / 2)
      = (TwoPowerIntegerSphericalPotential.init 1 1 3, some PyErr.valueError)) := by
  have hne : (3 : ℝ) / 2 ≠ (pyInt ((3 : ℝ) / 2) : ℝ) := by
    rw [pyIntThreeHalvesEq]
    norm_num
  exact ⟨hne, C6_noninteger_exponent_rejected
    (TwoPowerIntegerSphericalPotential.init 1 1 3) (3 / 2) hne⟩

/-- C10: on every `TwoPowerIntegerSphericalPotential` instance — whatever
its exponent pair and elementary binding — and at every query point, the
inherited `_z2deriv` forwards the `_forceFloatEval` keyword to a
`_R2deriv` override that does not accept it, so the call raises
`TypeError` before any formula is evaluated; the R/z-swap relation is
therefore unreachable on this class. -/
theorem C10_integer_z2deriv_always_typeerror (F : ℝ → ℝ → ℝ → ℝ → ℝ)
    (s : TwoPowerIntegerState) (R z : ℝ) (ffe : Bool) :
    TwoPowerIntegerSphericalPotential.z2deriv F s R z ffe
      = Except.error PyErr.typeError := rfl

lemma dehnenInit11Eq : DehnenSphericalPotential.init 1 1 =
    { a := 1, alpha := 1,
      integerSelf := some
        { a := 1, alpha := 1, beta := 4, integerSelf := some ElemKind.hernquist } } := by
  rw [DehnenSphericalPotential.init, round_one,
    if_pos (by norm_num : (1 : ℝ) = ((1 : ℤ) : ℝ))]
  rw [TwoPowerIntegerSphericalPotential.init]
  rfl

/-- C4 (code bug): on a `DehnenSphericalPotential` with integer α (here
α=1, so an integer evaluator is bound), `secondDerivativeRadial(0.3, 0.4)`
does not return the bound evaluator's value: the delegation call passes
`self` as an extra positional argument, giving `phi` two values, so the
query raises `TypeError` instead of forwarding the arguments unchanged. -/
theorem C4_integer_alpha_delegation_raises_typeerror :
    DehnenSphericalPotential.r2deriv (DehnenSphericalPotential.init 1 1)
        0.3 0.4 false
      = Except.error PyErr.typeError := by
  rw [dehnenInit11Eq]
  rfl

lemma sqrtOneZeroEq : Real.sqrt ((1 : ℝ) ^ 2 + 0 ^ 2) = 1 := by
  rw [show ((1 : ℝ) ^ 2 + 0 ^ 2) = 1 by norm_num, Real.sqrt_one]

lemma hyp2f1Model355Eq : hyp2f1Model 3 5 5 (-1) = 1 / 8 := by
  rw [hyp2f1ModelEq, show (1 : ℝ) - (-1) = 2 by norm_num,
    show (-(3 : ℝ)) = ((-3 : ℤ) : ℝ) by norm_num, Real.rpow_intCast]
  norm_num

lemma hyp2f1Model455Eq : hyp2f1Model 4 5 5 (-1) = 1 / 16 := by
  rw [hyp2f1ModelEq, show (1 : ℝ) - (-1) = 2 by norm_num,
    show (-(4 : ℝ)) = ((-4 : ℤ) : ℝ) by norm_num, Real.rpow_intCast]
  norm_num

/-- C3 (code bug): at β = 5 exactly — where the specification requires an
explicit, clearly labeled "not implemented for this β" failure — the
active integer `_R2deriv` has no guard (the β=3/β=5 guards survive only in
the commented-out general `_R2deriv`) and returns the numeric value -5/48
for the exponent pair (α,β) = (1,5), a = 1, at query point (R,z) = (1,0),
instead of raising. -/
theorem C3_beta5_second_derivative_returns_number :
    TwoPowerIntegerSphericalPotential.r2deriv hyp2f1Model
        (TwoPowerIntegerSphericalPotential.init 1 1 5) 1 0
      = Except.ok (-(5 / 48 : ℝ)) := by
  show Except.ok (TwoPowerIntegerSphericalPotential.r2derivFormula hyp2f1Model
      1 ((1 : ℤ) : ℝ) ((5 : ℤ) : ℝ) 1 0) = Except.ok (-(5 / 48 : ℝ))
  refine congrArg Except.ok ?_
  rw [TwoPowerIntegerSphericalPotential.r2derivFormula]
  push_cast
  rw [sqrtOneZeroEq]
  norm_num [Real.one_rpow, Real.Gamma_two, gammaFourEq, gammaFiveEq,
    hyp2f1Model355Eq, hyp2f1Model455Eq, Nat.factorial]

lemma sqrtTwoZeroEq : Real.sqrt ((2 : ℝ) ^ 2 + 0 ^ 2) = 2 := by
  rw [show ((2 : ℝ) ^ 2 + 0 ^ 2) = 2 ^ 2 by norm_num]
  exact Real.sqrt_sq (by norm_num)

lemma hyp2f1Model233NegTwoEq : hyp2f1Model 2 3 3 (-2) = 1 / 9 := by
  rw [hyp2f1ModelEq, show (1 : ℝ) - (-2) = 3 by norm_num,
    show (-(2 : ℝ)) = ((-2 : ℤ) : ℝ) by norm_num, Real.rpow_intCast]
  norm_num

lemma hyp2f1Model233NegHalfEq : hyp2f1Model 2 3 3 (-1 / 2) = 4 / 9 := by
  rw [hyp2f1ModelEq, show (1 : ℝ) - (-1 / 2) = 3 / 2 by norm_num,
    show (-(2 : ℝ)) = ((-2 : ℤ) : ℝ) by norm_num, Real.rpow_intCast]
  norm_num

/-- C2 counterexample: at a = 1, α = 1, β = 4, (R,z) = (2,0) — so r = 2 —
the code's radial force is -1/18, but R times the spec's force factor
(with hypergeometric argument -a/r as the claim states) is -2/9: the code
passes -r/a, not -a/r, to `hyp2f1`.  The model provider agrees with the
true ₂F₁ at every argument tuple appearing here (all have b = c). -/
theorem C2_counterexample :
    TwoPowerSphericalPotential.rforceFloat hyp2f1Model 1 1 4 2 0
      ≠ 2 * specForceFactor hyp2f1Model 1 1 4
          (Real.sqrt ((2 : ℝ) ^ 2 + 0 ^ 2)) := by
  rw [TwoPowerSphericalPotential.rforceFloat, specForceFactor, sqrtTwoZeroEq]
  rw [show (3 : ℝ) - 1 = 2 by norm_num, show (4 : ℝ) - 1 = 3 by norm_num]
  simp only [div_one]
  rw [Real.rpow_one, Real.one_rpow, rpowNegOneReal, hyp2f1Model233NegTwoEq,
    hyp2f1Model233NegHalfEq]
  norm_num

/-- C2 amended: for every provider `F`, every a, every real α ≠ 3 and β,
and every point with r > 0, the general evaluator's forces factor as
`R·f(r)` and `z·f(r)` where `f` is the spec's magnitude factor with the
hypergeometric argument corrected from -a/r to -r/a (what the code
passes). -/
theorem C2_amended_force_factorization (F : ℝ → ℝ → ℝ → ℝ → ℝ)
    (a α β R z : ℝ) (h : 0 < R ^ 2 + z ^ 2) (hα : α ≠ 3) :
    TwoPowerSphericalPotential.rforceFloat F a α β R z
        = R * specForceFactorAmended F a α β (Real.sqrt (R ^ 2 + z ^ 2)) ∧
    TwoPowerSphericalPotential.zforceFloat F a α β R z
        = z * specForceFactorAmended F a α β (Real.sqrt (R ^ 2 + z ^ 2)) := by
  have hnn : (0 : ℝ) ≤ Real.sqrt (R ^ 2 + z ^ 2) := Real.sqrt_nonneg _
  constructor
  · rw [TwoPowerSphericalPotential.rforceFloat, specForceFactorAmended,
      Real.rpow_neg hnn]
    ring
  · rw [TwoPowerSphericalPotential.zforceFloat, specForceFactorAmended,
      Real.rpow_neg hnn]
    ring

/-- Witness for the amended C2 at a = 1, α = 1, β = 4, (R,z) = (2,0). -/
theorem C2_amended_witness :
    (0 : ℝ) < 2 ^ 2 + 0 ^ 2 ∧ (1 : ℝ) ≠ 3 ∧
    (TwoPowerSphericalPotential.rforceFloat hyp2f1Model 1 1 4 2 0
        = 2 * specForceFactorAmended hyp2f1Model 1 1 4
            (Real.sqrt ((2 : ℝ) ^ 2 + 0 ^ 2)) ∧
    TwoPowerSphericalPotential.zforceFloat hyp2f1Model 1 1 4 2 0
        = 0 * specForceFactorAmended hyp2f1Model 1 1 4
            (Real.sqrt ((2 : ℝ) ^ 2 + 0 ^ 2))) :=
  ⟨by norm_num, by norm_num,
    C2_amended_force_factorization hyp2f1Model 1 1 4 2 0 (by norm_num)
      (by norm_num)⟩
